import Mathlib

/-!
# Verification of the stock-dashboard metrics engine (`src/app.py`)

Shallow embedding of the computational core of the dashboard:

* the derived-column computation inside `get_stock_data`
  (`pct_change`, `(1 + r).cumprod() - 1`, `Close / Close.cummax() - 1`),
* the four summary scalars (`total_return`, `avg_daily_return`,
  `volatility`, `max_drawdown`),
* the date-range validation gate and the `df is None` guard,
* the conditional-formatting function `highlight_returns`,
* the TTL cache around the data fetch (`@st.cache_data(ttl=3600)`),
  modelled from the spec because the decorator's implementation lives in
  an external library,
* the ticker normalisation `.upper().strip()`.

Modelling conventions: close prices and derived values are exact
rationals (`ℚ`); a pandas `NaN` cell is `none` in `Option ℚ`; a pandas
column is a `List`.  Pandas reductions (`mean`, `std`, `cumprod`) skip
`NaN` values, which the embeddings reproduce explicitly.  Dates and
timestamps are integers; ticker strings are lists of code points (`Nat`).
-/

set_option autoImplicit false

namespace App

/-- `data["Close"].pct_change()` : first cell `NaN`, then
`Close[i] / Close[i-1] - 1` for each `i ≥ 1`. -/
def pct_change (closes : List ℚ) : List (Option ℚ) :=
  match closes with
  | [] => []
  | _ :: _ => none :: (closes.zip closes.tail).map (fun p => some (p.2 / p.1 - 1))

/-- Pandas `Series.cumprod()` with the default `skipna=True`: a `NaN`
cell stays `NaN` and does not enter the running product; a defined cell
multiplies the product of all defined cells so far. -/
def cumprodGo (acc : ℚ) : List (Option ℚ) → List (Option ℚ)
  | [] => []
  | none :: xs => none :: cumprodGo acc xs
  | some x :: xs => some (acc * x) :: cumprodGo (acc * x) xs

/-- `Series.cumprod()` starting from an empty running product. -/
def cumprodSkipNA (l : List (Option ℚ)) : List (Option ℚ) :=
  cumprodGo 1 l

/-- `data["Cumulative Return"] = (1 + data["Daily Return"]).cumprod() - 1`.
`1 + NaN` is `NaN`, and subtracting 1 from a `NaN` cell leaves `NaN`. -/
def cumulative_return (closes : List ℚ) : List (Option ℚ) :=
  (cumprodSkipNA ((pct_change closes).map (Option.map (fun r => 1 + r)))).map
    (Option.map (fun x => x - 1))

/-- `Series.cummax()` continued from a running maximum `m`. -/
def cummaxGo (m : ℚ) : List ℚ → List ℚ
  | [] => []
  | c :: cs => max m c :: cummaxGo (max m c) cs

/-- `data["Close"].cummax()` : the running maximum of the closes. -/
def cummax : List ℚ → List ℚ
  | [] => []
  | c :: cs => c :: cummaxGo c cs

/-- `data["Max Drawdown"] = (data["Close"] / data["Close"].cummax()) - 1`.
No cell of this column is `NaN` (the closes contain no `NaN`). -/
def drawdown_col (closes : List ℚ) : List ℚ :=
  (closes.zip (cummax closes)).map (fun p => p.1 / p.2 - 1)

/-- Pandas `Series.mean()` (`skipna=True`): `NaN` when no cell is
defined, otherwise the arithmetic mean of the defined cells. -/
def meanSkipNA (l : List (Option ℚ)) : Option ℚ :=
  let vs := l.filterMap id
  if vs.length = 0 then none else some (vs.sum / vs.length)

/-- Pandas `Series.std()` computes the sample standard deviation
(`ddof=1`) of the defined cells; it is `NaN` when fewer than two cells
are defined.  This embedding carries the sample *variance* (the square
of the standard deviation) so that all values stay rational; the
standard deviation itself is `Real.sqrt` of this value, applied where a
statement needs it. -/
def sampleVarSkipNA (l : List (Option ℚ)) : Option ℚ :=
  let vs := l.filterMap id
  if vs.length < 2 then none
  else
    let m := vs.sum / vs.length
    some ((vs.map (fun x => (x - m) ^ 2)).sum / ((vs.length : ℚ) - 1))

/-- Pandas `Series.min()` on a `NaN`-free column: `NaN` on an empty
column, otherwise the least element. -/
def listMin : List ℚ → Option ℚ
  | [] => none
  | c :: cs => some (cs.foldl min c)

/-- `total_return = df["Cumulative Return"].iloc[-1]` (the column is
never empty when this line runs, so the empty-list default is inert). -/
def total_return (closes : List ℚ) : Option ℚ :=
  (cumulative_return closes).getLastD none

/-- `avg_daily_return = df["Daily Return"].mean()`. -/
def avg_daily_return (closes : List ℚ) : Option ℚ :=
  meanSkipNA (pct_change closes)

/-- `volatility = df["Daily Return"].std()`, carried as the sample
variance (see `sampleVarSkipNA`); the displayed volatility is
`Real.sqrt` of this. -/
def volatility_var (closes : List ℚ) : Option ℚ :=
  sampleVarSkipNA (pct_change closes)

/-- `max_drawdown = df["Max Drawdown"].min()`. -/
def max_drawdown (closes : List ℚ) : Option ℚ :=
  listMin (drawdown_col closes)

/-- The data frame returned by `get_stock_data` on non-empty data:
the close column plus the three derived columns added on lines 33-35. -/
structure StockFrame where
  close : List ℚ
  dailyReturn : List (Option ℚ)
  cumulativeReturn : List (Option ℚ)
  maxDrawdownCol : List ℚ
  deriving Repr, DecidableEq

/-- Lines 30-36 of `get_stock_data` after the download: `None` when the
downloaded data is empty, otherwise the frame with the derived columns. -/
def get_stock_data (closes : List ℚ) : Option StockFrame :=
  if closes.isEmpty then none
  else some ⟨closes, pct_change closes, cumulative_return closes, drawdown_col closes⟩

/-- `highlight_returns` (lines 87-91): no styling for a `NaN` cell,
green for a strictly positive return, red otherwise. -/
def highlight_returns (val : Option ℚ) : String :=
  match val with
  | none => ""
  | some v => if v > 0 then "color: green" else "color: red"

/-- Outcome of the date-range gate on line 23. -/
inductive ValidateResult where
  | ok
  | rangeError
  deriving Repr, DecidableEq

/-- Line 23: `if start_date > end_date or start_date > date.today() or
end_date > date.today()`, with dates modelled as integers (day counts). -/
def validate (s e today : ℤ) : ValidateResult :=
  if s > e ∨ s > today ∨ e > today then .rangeError else .ok

/-- A ticker is a sequence of code points (each a `Nat`). -/
abbrev Ticker := List Nat

/-- Outcome of one top-to-bottom run of the script. -/
inductive Outcome where
  | rangeError
  | noDataError
  | rendered (f : StockFrame)
  deriving Repr, DecidableEq

/-- One run of the script: the range gate (lines 23-25, `st.stop()` on
failure), then the fetch (line 39, counted in the second component),
the `df is None` guard (lines 41-43), and the render.  The cache layer
is modelled separately by `fetchCached`. -/
def runPipeline (adapter : Ticker → ℤ → ℤ → List ℚ) (tick : Ticker)
    (s e today : ℤ) : Outcome × Nat :=
  match validate s e today with
  | .rangeError => (.rangeError, 0)
  | .ok =>
    match get_stock_data (adapter tick s e) with
    | none => (.noDataError, 1)
    | some f => (.rendered f, 1)

/-- Cache key of `@st.cache_data`: the argument triple of
`get_stock_data`, i.e. (ticker, start, end). -/
abbrev CacheKey := Ticker × ℤ × ℤ

/-- Cached value: a price series, or `none` for the explicit Empty
marker (a fetch that returned no rows). -/
abbrev CacheVal := Option (List ℚ)

/-- The cache store: each key maps to a stored value and its timestamp. -/
abbrev Cache := CacheKey → Option (CacheVal × ℤ)

/-- Modelled from the spec: `TTL = 3600 time units (seconds), fixed`
(§4.2); the decorator argument `ttl=3600` on line 28. -/
def TTL : ℤ := 3600

/-- Store a value with its timestamp under a key. -/
def cacheInsert (c : Cache) (k : CacheKey) (v : CacheVal) (ts : ℤ) : Cache :=
  fun k' => if k' = k then some (v, ts) else c k'

/-- Modelled from the spec: the caching wrapper of §4.2 around the data
provider, implemented in the source by the external `@st.cache_data(ttl=3600)`
decorator (line 28) whose code is not part of this repository.  A miss
(no entry, or entry age `≥ TTL` relative to `now`) calls the adapter and
stores the result — even an Empty one — with timestamp `now`; a hit
returns the stored value without calling the adapter.  The result is
(value, new cache, number of adapter invocations). -/
def fetchCached (adapter : CacheKey → ℤ → CacheVal) (c : Cache)
    (k : CacheKey) (now : ℤ) : CacheVal × Cache × Nat :=
  match c k with
  | some (v, ts) =>
    if now - ts < TTL then (v, c, 0)
    else (adapter k now, cacheInsert c k (adapter k now) now, 1)
  | none => (adapter k now, cacheInsert c k (adapter k now) now, 1)

/-- Python's default whitespace set for `str.strip`, restricted to the
ASCII range: space, tab, newline, vertical tab, form feed, carriage
return. -/
def isSpaceCh (c : Nat) : Bool :=
  c = 32 || c = 9 || c = 10 || c = 11 || c = 12 || c = 13

/-- Python's `str.upper` on one code point, ASCII range: a lowercase
letter loses 32, anything else is unchanged. -/
def upperCh (c : Nat) : Nat :=
  if 97 ≤ c ∧ c ≤ 122 then c - 32 else c

/-- `str.upper()` over the whole string. -/
def pyUpper (s : Ticker) : Ticker :=
  s.map upperCh

/-- `str.strip()` : drop leading and trailing whitespace. -/
def pyStrip (s : Ticker) : Ticker :=
  ((s.dropWhile isSpaceCh).reverse.dropWhile isSpaceCh).reverse

/-- Line 14: `st.text_input(...).upper().strip()` — uppercase first,
then strip. -/
def normalizeTicker (s : Ticker) : Ticker :=
  pyStrip (pyUpper s)

/-! ### Spec-side definitions

These follow the spec's words, for comparison with the embeddings
above. -/

/-- Spec §3: the defined daily returns `Close[i]/Close[i-1] - 1` for
`i = 1 .. last`, as plain rationals. -/
def specDailyReturns (closes : List ℚ) : List ℚ :=
  (closes.zip closes.tail).map (fun p => p.2 / p.1 - 1)

/-- Spec §3: `CumulativeReturn[i] = Π(1 + DailyReturn[0..i]) − 1`,
treating the undefined `DailyReturn[0]` as 0 — its factor `1 + 0` is
dropped from the product, which then runs over `j = 1 .. i`. -/
def specCumProd (closes : List ℚ) (i : Nat) : ℚ :=
  (((specDailyReturns closes).take i).map (fun r => 1 + r)).prod - 1

/-- Spec §3: `max(Close[0..i])`, the greatest close among the first
`i + 1` entries (0 for the out-of-range empty prefix, never used). -/
def listMax : List ℚ → ℚ
  | [] => 0
  | c :: cs => cs.foldl max c

/-- Spec §3: `AvgDailyReturn = mean(DailyReturn[1..last])`. -/
def specAvg (closes : List ℚ) : ℚ :=
  (specDailyReturns closes).sum / (specDailyReturns closes).length

/-- Spec §3: the sample variance (square of the sample standard
deviation) of `DailyReturn[1..last]`; undefined when fewer than two
returns exist, as a sample deviation needs at least two observations. -/
def specSampleVar (closes : List ℚ) : Option ℚ :=
  let rs := specDailyReturns closes
  if rs.length < 2 then none
  else some ((rs.map (fun x => (x - specAvg closes) ^ 2)).sum / ((rs.length : ℚ) - 1))

/-! ### Helper lemmas -/

theorem pct_change_length (closes : List ℚ) :
    (pct_change closes).length = closes.length := by
  cases closes with
  | nil => rfl
  | cons c cs => simp [pct_change, List.length_zip]

theorem zip_tail_getElem (closes : List ℚ) (j : Nat) (h : j + 1 < closes.length) :
    (closes.zip closes.tail)[j]? = some (closes.getD j 0, closes.getD (j + 1) 0) := by
  induction closes generalizing j with
  | nil => simp at h
  | cons c cs ih =>
    cases cs with
    | nil => simp at h
    | cons c₁ cs₁ =>
      cases j with
      | zero => simp [List.zip]
      | succ j' =>
        have h' : j' + 1 < (c₁ :: cs₁).length := by
          simpa [Nat.succ_lt_succ_iff] using h
        simpa [List.zip] using ih j' h'

theorem pct_change_getElem_succ (closes : List ℚ) (j : Nat)
    (h : j + 1 < closes.length) :
    (pct_change closes)[j + 1]? =
      some (some (closes.getD (j + 1) 0 / closes.getD j 0 - 1)) := by
  cases closes with
  | nil => simp at h
  | cons c cs =>
    have he : pct_change (c :: cs)
        = none :: ((c :: cs).zip cs).map (fun p => some (p.2 / p.1 - 1)) := rfl
    have hz := zip_tail_getElem (c :: cs) j h
    rw [List.tail_cons] at hz
    rw [he, List.getElem?_cons_succ, List.getElem?_map, hz]
    rfl

theorem pct_change_headElem (closes : List ℚ) (h : closes ≠ []) :
    (pct_change closes)[0]? = some none := by
  cases closes with
  | nil => exact absurd rfl h
  | cons c cs => simp [pct_change]

theorem cumprodGo_map_some (a : ℚ) (xs : List ℚ) (j : Nat) (h : j < xs.length) :
    (cumprodGo a (xs.map some))[j]? = some (some (a * (xs.take (j + 1)).prod)) := by
  induction xs generalizing a j with
  | nil => simp at h
  | cons x xs ih =>
    cases j with
    | zero => simp [cumprodGo]
    | succ j' =>
      have h' : j' < xs.length := by simpa [Nat.succ_lt_succ_iff] using h
      have hih := ih (a * x) j' h'
      simp [cumprodGo, hih, mul_assoc]

theorem cumulative_return_eq (c : ℚ) (cs : List ℚ) :
    cumulative_return (c :: cs)
      = none :: (cumprodGo 1 (((specDailyReturns (c :: cs)).map (fun r => 1 + r)).map some)).map
          (Option.map (fun x => x - 1)) := by
  have he : pct_change (c :: cs)
      = none :: ((c :: cs).zip cs).map (fun p => some (p.2 / p.1 - 1)) := rfl
  unfold cumulative_return cumprodSkipNA specDailyReturns
  rw [he]
  simp [cumprodGo, List.map_map, Function.comp]
  have harg : ((Option.map fun r => 1 + r) ∘ fun p : ℚ × ℚ => some (p.2 / p.1 - 1))
      = (some ∘ (fun r => 1 + r) ∘ fun p : ℚ × ℚ => p.2 / p.1 - 1) :=
    funext fun p => rfl
  rw [harg]

theorem specDailyReturns_length (closes : List ℚ) (h : closes ≠ []) :
    (specDailyReturns closes).length = closes.length - 1 := by
  cases closes with
  | nil => exact absurd rfl h
  | cons c cs => simp [specDailyReturns, List.length_zip]

theorem cummaxGo_getElem (cs : List ℚ) (m : ℚ) (j : Nat) (h : j < cs.length) :
    (cummaxGo m cs)[j]? = some ((cs.take (j + 1)).foldl max m) := by
  induction cs generalizing m j with
  | nil => simp at h
  | cons c cs ih =>
    cases j with
    | zero => simp [cummaxGo]
    | succ j' =>
      have h' : j' < cs.length := by simpa [Nat.succ_lt_succ_iff] using h
      simpa [cummaxGo] using ih (max m c) j' h'

theorem cummax_getElem (closes : List ℚ) (i : Nat) (h : i < closes.length) :
    (cummax closes)[i]? = some (listMax (closes.take (i + 1))) := by
  cases closes with
  | nil => simp at h
  | cons c cs =>
    cases i with
    | zero => simp [cummax, listMax]
    | succ j =>
      have h' : j < cs.length := by simpa [Nat.succ_lt_succ_iff] using h
      simpa [cummax, listMax] using cummaxGo_getElem cs c j h'

theorem le_foldl_max (l : List ℚ) (m : ℚ) : m ≤ l.foldl max m := by
  induction l generalizing m with
  | nil => exact le_refl m
  | cons x l ih => exact le_trans (le_max_left m x) (ih (max m x))

theorem mem_le_foldl_max (l : List ℚ) (m x : ℚ) (hx : x ∈ l) : x ≤ l.foldl max m := by
  induction l generalizing m with
  | nil => simp at hx
  | cons y l ih =>
    rw [List.foldl_cons]
    rcases List.mem_cons.mp hx with rfl | hx'
    · exact le_trans (le_max_right m x) (le_foldl_max l (max m x))
    · exact ih (max m y) hx'

theorem foldl_max_mem (cs : List ℚ) (c : ℚ) : cs.foldl max c ∈ c :: cs := by
  induction cs generalizing c with
  | nil => simp
  | cons x cs ih =>
    have hmem := ih (max c x)
    rcases List.mem_cons.mp hmem with hhead | htail
    · rw [List.foldl_cons, hhead]
      rcases max_choice c x with hc | hx
      · rw [hc]; exact List.mem_cons_self _ _
      · rw [hx]; exact List.mem_cons_of_mem _ (List.mem_cons_self _ _)
    · rw [List.foldl_cons]
      exact List.mem_cons_of_mem _ (List.mem_cons_of_mem _ htail)

theorem listMax_mem (l : List ℚ) (h : l ≠ []) : listMax l ∈ l := by
  cases l with
  | nil => exact absurd rfl h
  | cons c cs => exact foldl_max_mem cs c

theorem mem_le_listMax (l : List ℚ) (x : ℚ) (hx : x ∈ l) : x ≤ listMax l := by
  cases l with
  | nil => simp at hx
  | cons c cs =>
    rcases List.mem_cons.mp hx with rfl | hx'
    · exact le_foldl_max cs x
    · exact mem_le_foldl_max cs c x hx'

theorem cummaxGo_length (cs : List ℚ) (m : ℚ) : (cummaxGo m cs).length = cs.length := by
  induction cs generalizing m with
  | nil => rfl
  | cons c cs ih => simp [cummaxGo, ih]

theorem cummax_length (closes : List ℚ) : (cummax closes).length = closes.length := by
  cases closes with
  | nil => rfl
  | cons c cs => simp [cummax, cummaxGo_length]

theorem drawdown_col_length (closes : List ℚ) :
    (drawdown_col closes).length = closes.length := by
  simp [drawdown_col, List.length_zip, cummax_length]

theorem drawdown_col_getElem (closes : List ℚ) (i : Nat) (h : i < closes.length) :
    (drawdown_col closes)[i]? =
      some (closes.getD i 0 / listMax (closes.take (i + 1)) - 1) := by
  have hc : closes[i]? = some (closes.getD i 0) := by
    rw [List.getElem?_eq_getElem h, List.getD_eq_getElem closes 0 h]
  have hm : (cummax closes)[i]? = some (listMax (closes.take (i + 1))) :=
    cummax_getElem closes i h
  have hz : (closes.zip (cummax closes))[i]? =
      some (closes.getD i 0, listMax (closes.take (i + 1))) :=
    List.getElem?_zip_eq_some.mpr ⟨hc, hm⟩
  unfold drawdown_col
  rw [List.getElem?_map, hz]
  rfl

theorem cumprodGo_length (l : List (Option ℚ)) (a : ℚ) :
    (cumprodGo a l).length = l.length := by
  induction l generalizing a with
  | nil => rfl
  | cons o l ih => cases o <;> simp [cumprodGo, ih]

theorem cumulative_return_length (closes : List ℚ) :
    (cumulative_return closes).length = closes.length := by
  simp [cumulative_return, cumprodSkipNA, cumprodGo_length, pct_change_length]

theorem pct_change_filterMap (closes : List ℚ) :
    (pct_change closes).filterMap id = specDailyReturns closes := by
  cases closes with
  | nil => rfl
  | cons c cs =>
    have he : pct_change (c :: cs)
        = none :: ((c :: cs).zip cs).map (fun p => some (p.2 / p.1 - 1)) := rfl
    rw [he]
    simp only [specDailyReturns, List.filterMap_cons, List.filterMap_map, Function.comp,
      id_eq, List.tail_cons]
    exact congrFun (List.filterMap_eq_map fun p : ℚ × ℚ => p.2 / p.1 - 1) _

theorem foldl_min_le_init (l : List ℚ) (m : ℚ) : l.foldl min m ≤ m := by
  induction l generalizing m with
  | nil => exact le_refl m
  | cons x l ih => exact le_trans (ih (min m x)) (min_le_left m x)

theorem foldl_min_le_mem (l : List ℚ) (m x : ℚ) (hx : x ∈ l) : l.foldl min m ≤ x := by
  induction l generalizing m with
  | nil => simp at hx
  | cons y l ih =>
    rw [List.foldl_cons]
    rcases List.mem_cons.mp hx with rfl | hx'
    · exact le_trans (foldl_min_le_init l (min m x)) (min_le_right m x)
    · exact ih (min m y) hx'

theorem foldl_min_mem (cs : List ℚ) (c : ℚ) : cs.foldl min c ∈ c :: cs := by
  induction cs generalizing c with
  | nil => simp
  | cons x cs ih =>
    have hmem := ih (min c x)
    rcases List.mem_cons.mp hmem with hhead | htail
    · rw [List.foldl_cons, hhead]
      rcases min_choice c x with hc | hx
      · rw [hc]; exact List.mem_cons_self _ _
      · rw [hx]; exact List.mem_cons_of_mem _ (List.mem_cons_self _ _)
    · rw [List.foldl_cons]
      exact List.mem_cons_of_mem _ (List.mem_cons_of_mem _ htail)

theorem volatility_var_eq_spec (closes : List ℚ) :
    volatility_var closes = specSampleVar closes := by
  simp only [volatility_var, sampleVarSkipNA, specSampleVar, pct_change_filterMap, specAvg]

theorem listMin_spec (l : List ℚ) (h : l ≠ []) :
    ∃ m, listMin l = some m ∧ m ∈ l ∧ ∀ x ∈ l, m ≤ x := by
  cases l with
  | nil => exact absurd rfl h
  | cons c cs =>
    refine ⟨cs.foldl min c, rfl, foldl_min_mem cs c, ?_⟩
    intro x hx
    rcases List.mem_cons.mp hx with rfl | hx'
    · exact foldl_min_le_init cs x
    · exact foldl_min_le_mem cs c x hx'

/-! ### Claims -/

/-- C3: for every non-empty price series, the `Daily Return` column has
the same length as the series, its first cell is the `NaN` sentinel, and
cell `i` is `Close[i]/Close[i-1] - 1` for every `i ≥ 1`. -/
theorem daily_return_spec (closes : List ℚ) (h : closes ≠ []) :
    (pct_change closes).length = closes.length ∧
    (pct_change closes)[0]? = some none ∧
    ∀ i, 1 ≤ i → i < closes.length →
      (pct_change closes)[i]? =
        some (some (closes.getD i 0 / closes.getD (i - 1) 0 - 1)) := by
  refine ⟨pct_change_length closes, pct_change_headElem closes h, ?_⟩
  intro i hi hlen
  cases i with
  | zero => omega
  | succ j => simpa using pct_change_getElem_succ closes j hlen

/-- C2 (amended): for every non-empty price series the `Cumulative
Return` column is the `NaN` sentinel at index 0, and for every `i ≥ 1`
cell `i` equals `Π(1 + DailyReturn[1..i]) − 1` (the spec's product with
the undefined `DailyReturn[0]` treated as 0, i.e. contributing the
factor 1); the claim's additional assertion that the formula also holds
at `i = 0` with value 0 fails, since the code leaves that cell `NaN`. -/
theorem cumulative_return_spec (closes : List ℚ) (h : closes ≠ []) :
    (cumulative_return closes)[0]? = some none ∧
    ∀ i, 1 ≤ i → i < closes.length →
      (cumulative_return closes)[i]? = some (some (specCumProd closes i)) := by
  obtain ⟨c, cs, rfl⟩ := List.exists_cons_of_ne_nil h
  rw [cumulative_return_eq]
  refine ⟨by simp, ?_⟩
  intro i hi hlen
  cases i with
  | zero => omega
  | succ j =>
    have hjlen : j < ((specDailyReturns (c :: cs)).map (fun r => 1 + r)).length := by
      rw [List.length_map, specDailyReturns_length _ (by simp)]
      simp only [List.length_cons] at hlen ⊢
      omega
    rw [List.getElem?_cons_succ, List.getElem?_map, cumprodGo_map_some 1 _ j hjlen]
    simp [specCumProd, List.map_take]

/-- C2 counterexample: at `Close = [100, 110, 99]` and index 0 the
code's cumulative-return cell is the `NaN` sentinel, while the claim's
formula (`DailyReturn[0]` treated as 0) demands the defined value 0. -/
theorem cumulative_return_at_zero_cex :
    (cumulative_return [(100 : ℚ), 110, 99])[0]? ≠
      some (some (specCumProd [(100 : ℚ), 110, 99] 0)) := by
  decide

/-- C4: for every non-empty price series with positive closes the
`Max Drawdown` column aligns with the series, cell `i` is
`Close[i] / max(Close[0..i]) - 1`, every cell is `≤ 0`, and a cell is 0
exactly when its close equals the running maximum so far. -/
theorem drawdown_spec (closes : List ℚ) (_hne : closes ≠ [])
    (hpos : ∀ c ∈ closes, 0 < c) :
    (drawdown_col closes).length = closes.length ∧
    ∀ i, i < closes.length →
      (drawdown_col closes)[i]? =
        some (closes.getD i 0 / listMax (closes.take (i + 1)) - 1) ∧
      closes.getD i 0 / listMax (closes.take (i + 1)) - 1 ≤ 0 ∧
      (closes.getD i 0 / listMax (closes.take (i + 1)) - 1 = 0 ↔
        closes.getD i 0 = listMax (closes.take (i + 1))) := by
  refine ⟨drawdown_col_length closes, ?_⟩
  intro i hi
  have htlen : i < (closes.take (i + 1)).length := by
    simp only [List.length_take]
    omega
  have hxmem : closes.getD i 0 ∈ closes.take (i + 1) := by
    have hx : (closes.take (i + 1))[i] = closes[i] := List.getElem_take closes
    rw [List.getD_eq_getElem closes 0 hi, ← hx]
    exact List.getElem_mem htlen
  have htne : closes.take (i + 1) ≠ [] :=
    List.length_pos.mp (by omega)
  have hMmem : listMax (closes.take (i + 1)) ∈ closes.take (i + 1) :=
    listMax_mem _ htne
  have hMpos : 0 < listMax (closes.take (i + 1)) :=
    hpos _ (List.take_subset _ _ hMmem)
  have hxM : closes.getD i 0 ≤ listMax (closes.take (i + 1)) :=
    mem_le_listMax _ _ hxmem
  refine ⟨drawdown_col_getElem closes i hi, ?_, ?_⟩
  · exact sub_nonpos.mpr ((div_le_one hMpos).mpr hxM)
  · rw [sub_eq_zero]
    exact div_eq_one_iff_eq (ne_of_gt hMpos)

/-- C5: for every price series with at least two points, TotalReturn is
the last cumulative-return cell, AvgDailyReturn is the mean of the daily
returns over indices `1..last` (the undefined index-0 cell excluded),
the volatility is their sample standard deviation (stated on the sample
variance it is the square of, and again under `Real.sqrt`), and
MaxDrawdown is the least cell of the drawdown series. -/
theorem summary_scalars_spec (closes : List ℚ) (h : 2 ≤ closes.length) :
    (cumulative_return closes)[closes.length - 1]? = some (total_return closes) ∧
    avg_daily_return closes = some (specAvg closes) ∧
    volatility_var closes = specSampleVar closes ∧
    (volatility_var closes).map (fun q : ℚ => Real.sqrt (q : ℝ)) =
      (specSampleVar closes).map (fun q : ℚ => Real.sqrt (q : ℝ)) ∧
    ∃ m, max_drawdown closes = some m ∧ m ∈ drawdown_col closes ∧
      ∀ x ∈ drawdown_col closes, m ≤ x := by
  have hne : closes ≠ [] := List.ne_nil_of_length_pos (by omega)
  have hrs : (specDailyReturns closes).length = closes.length - 1 :=
    specDailyReturns_length closes hne
  refine ⟨?_, ?_, volatility_var_eq_spec closes, by rw [volatility_var_eq_spec], ?_⟩
  · have hL := cumulative_return_length closes
    have hLne : cumulative_return closes ≠ [] := List.ne_nil_of_length_pos (by omega)
    have h1 : (cumulative_return closes)[closes.length - 1]?
        = (cumulative_return closes).getLast? := by
      rw [List.getLast?_eq_getElem?, hL]
    rw [h1]
    cases hgl : (cumulative_return closes).getLast? with
    | none => exact absurd (List.getLast?_eq_none_iff.mp hgl) hLne
    | some v =>
      unfold total_return
      rw [List.getLastD_eq_getLast?, hgl]
      rfl
  · simp only [avg_daily_return, meanSkipNA, pct_change_filterMap, specAvg]
    rw [if_neg (by omega)]
  · have hdne : drawdown_col closes ≠ [] := by
      apply List.ne_nil_of_length_pos
      rw [drawdown_col_length]
      omega
    exact listMin_spec _ hdne

/-- Witness for C5 at `Close = [100, 110, 99]`. -/
theorem summary_scalars_spec_witness :
    (cumulative_return [(100 : ℚ), 110, 99])[([(100 : ℚ), 110, 99]).length - 1]? =
      some (total_return [(100 : ℚ), 110, 99]) ∧
    avg_daily_return [(100 : ℚ), 110, 99] = some (specAvg [(100 : ℚ), 110, 99]) ∧
    volatility_var [(100 : ℚ), 110, 99] = specSampleVar [(100 : ℚ), 110, 99] ∧
    (volatility_var [(100 : ℚ), 110, 99]).map (fun q : ℚ => Real.sqrt (q : ℝ)) =
      (specSampleVar [(100 : ℚ), 110, 99]).map (fun q : ℚ => Real.sqrt (q : ℝ)) ∧
    (∃ m, max_drawdown [(100 : ℚ), 110, 99] = some m ∧
      m ∈ drawdown_col [(100 : ℚ), 110, 99] ∧
      ∀ x ∈ drawdown_col [(100 : ℚ), 110, 99], m ≤ x) :=
  summary_scalars_spec [(100 : ℚ), 110, 99] (by decide)

/-- Witness for C4 at `Close = [100, 120, 90]` (`Drawdown = [0, 0, -0.25]`). -/
theorem drawdown_spec_witness :
    ((drawdown_col [(100 : ℚ), 120, 90]).length = ([(100 : ℚ), 120, 90]).length ∧
      ∀ i, i < ([(100 : ℚ), 120, 90]).length →
        (drawdown_col [(100 : ℚ), 120, 90])[i]? =
          some (([(100 : ℚ), 120, 90]).getD i 0 /
            listMax (([(100 : ℚ), 120, 90]).take (i + 1)) - 1) ∧
        ([(100 : ℚ), 120, 90]).getD i 0 /
            listMax (([(100 : ℚ), 120, 90]).take (i + 1)) - 1 ≤ 0 ∧
        (([(100 : ℚ), 120, 90]).getD i 0 /
            listMax (([(100 : ℚ), 120, 90]).take (i + 1)) - 1 = 0 ↔
          ([(100 : ℚ), 120, 90]).getD i 0 =
            listMax (([(100 : ℚ), 120, 90]).take (i + 1)))) ∧
    drawdown_col [(100 : ℚ), 120, 90] = [0, 0, (-1 : ℚ) / 4] :=
  ⟨drawdown_spec [(100 : ℚ), 120, 90] (by decide) (by decide),
    by norm_num [drawdown_col, cummax, cummaxGo]⟩

/-- Witness for C2 at `Close = [100, 110, 99]`, last index:
`CumulativeReturn[2] = 1.10 × 0.90 − 1 = -0.01`. -/
theorem cumulative_return_spec_witness :
    (cumulative_return [(100 : ℚ), 110, 99])[2]? = some (some ((-1 : ℚ) / 100)) := by
  have h2 := (cumulative_return_spec [(100 : ℚ), 110, 99] (by decide)).2 2
    (by omega) (by decide)
  exact h2.trans (by norm_num [specCumProd, specDailyReturns])

/-- Witness for C3 at `Close = [100, 110, 99]`. -/
theorem daily_return_spec_witness :
    (pct_change [(100 : ℚ), 110, 99]).length = ([(100 : ℚ), 110, 99]).length ∧
    (pct_change [(100 : ℚ), 110, 99])[0]? = some none ∧
    ∀ i, 1 ≤ i → i < ([(100 : ℚ), 110, 99]).length →
      (pct_change [(100 : ℚ), 110, 99])[i]? =
        some (some (([(100 : ℚ), 110, 99]).getD i 0 / ([(100 : ℚ), 110, 99]).getD (i - 1) 0 - 1)) :=
  daily_return_spec [(100 : ℚ), 110, 99] (by decide)

/-- C1 (amended): on a single-point series with a positive close the
frame is `⟨[c], [NaN], [NaN], [0]⟩`: TotalReturn, AvgDailyReturn and the
volatility are the NaN sentinel and the daily-return and
cumulative-return columns are single-cell NaN columns, but the drawdown
column's only cell is the defined value 0 and MaxDrawdown is the
defined value 0 — not NaN as the claim states. -/
theorem single_point_spec (c : ℚ) (hc : 0 < c) :
    get_stock_data [c] = some ⟨[c], [none], [none], [0]⟩ ∧
    total_return [c] = none ∧
    avg_daily_return [c] = none ∧
    volatility_var [c] = none ∧
    (volatility_var [c]).map (fun q : ℚ => Real.sqrt (q : ℝ)) = none ∧
    max_drawdown [c] = some 0 := by
  have hcc : c / c - 1 = 0 := by
    rw [div_self (ne_of_gt hc)]
    ring
  have hd : drawdown_col [c] = [0] := by
    show [c / c - 1] = [0]
    rw [hcc]
  refine ⟨?_, rfl, rfl, rfl, rfl, ?_⟩
  · rw [show get_stock_data [c]
        = some (⟨[c], [none], [none], drawdown_col [c]⟩ : StockFrame) from rfl, hd]
  · show some (([] : List ℚ).foldl min (c / c - 1)) = some 0
    rw [show ([] : List ℚ).foldl min (c / c - 1) = c / c - 1 from rfl, hcc]

/-- C1 counterexample: on the one-point series `[100]` the code's
MaxDrawdown is the defined value 0, not the NaN sentinel the claim
demands of all four summary scalars. -/
theorem single_point_cex :
    max_drawdown [(100 : ℚ)] = some 0 ∧ max_drawdown [(100 : ℚ)] ≠ none := by
  have h1 : max_drawdown [(100 : ℚ)] = some (100 / 100 - 1) := rfl
  have h2 : (100 : ℚ) / 100 - 1 = 0 := by norm_num
  refine ⟨by rw [h1, h2], by rw [h1, h2]; simp⟩

/-- Witness for C1 at `Close = [100]`. -/
theorem single_point_spec_witness :
    get_stock_data [(100 : ℚ)] = some ⟨[100], [none], [none], [0]⟩ ∧
    total_return [(100 : ℚ)] = none ∧
    avg_daily_return [(100 : ℚ)] = none ∧
    volatility_var [(100 : ℚ)] = none ∧
    (volatility_var [(100 : ℚ)]).map (fun q : ℚ => Real.sqrt (q : ℝ)) = none ∧
    max_drawdown [(100 : ℚ)] = some 0 :=
  single_point_spec 100 (by decide)

/-- C6: `get_stock_data` yields the explicit empty marker exactly on an
empty download; every non-empty input yields a frame; and when the date
gate passes but the adapter returns no rows, the run halts with
`noDataError` immediately after the single fetch, before any metric is
read. -/
theorem no_data_spec (closes : List ℚ) :
    (get_stock_data closes = none ↔ closes = []) ∧
    (closes ≠ [] → ∃ f, get_stock_data closes = some f) ∧
    (∀ (adapter : Ticker → ℤ → ℤ → List ℚ) (tick : Ticker) (s e today : ℤ),
      validate s e today = .ok → adapter tick s e = [] →
      runPipeline adapter tick s e today = (.noDataError, 1)) := by
  refine ⟨?_, ?_, ?_⟩
  · unfold get_stock_data
    constructor
    · intro hn
      by_cases hE : closes.isEmpty
      · exact List.isEmpty_iff.mp hE
      · rw [if_neg hE] at hn
        exact absurd hn (by simp)
    · intro h
      rw [h]
      rfl
  · intro hne
    refine ⟨⟨closes, pct_change closes, cumulative_return closes, drawdown_col closes⟩, ?_⟩
    unfold get_stock_data
    rw [if_neg (by simpa [List.isEmpty_iff] using hne)]
  · intro adapter tick s e today hv ha
    unfold runPipeline
    rw [hv, ha]
    rfl

/-- Witness for C6: a non-empty one-point input yields a frame, and an
empty fetch after a passing gate halts with `noDataError`. -/
theorem no_data_spec_witness :
    (∃ f, get_stock_data [(100 : ℚ)] = some f) ∧
    runPipeline (fun _ _ _ => []) [] 0 0 0 = (.noDataError, 1) :=
  ⟨(no_data_spec [(100 : ℚ)]).2.1 (by decide),
    (no_data_spec []).2.2 (fun _ _ _ => []) [] 0 0 0 (by decide) rfl⟩

/-- C7: the date gate rejects exactly when `start > end`, `start >
today` or `end > today` (so `start = end = today` passes), and on
rejection the run halts with zero adapter invocations. -/
theorem validate_spec (s e today : ℤ) :
    (validate s e today = .rangeError ↔ (s > e ∨ s > today ∨ e > today)) ∧
    (validate s e today = .rangeError →
      ∀ (adapter : Ticker → ℤ → ℤ → List ℚ) (tick : Ticker),
        runPipeline adapter tick s e today = (.rangeError, 0)) ∧
    validate today today today = .ok := by
  refine ⟨?_, ?_, ?_⟩
  · unfold validate
    by_cases hcond : s > e ∨ s > today ∨ e > today
    · simp [hcond]
    · simp [hcond]
  · intro hv adapter tick
    unfold runPipeline
    rw [hv]
  · unfold validate
    rw [if_neg (by omega)]

/-- Witness for C7: `start = 1 > end = 0` is rejected with no adapter
call. -/
theorem validate_spec_witness :
    runPipeline (fun _ _ _ => []) [] 1 0 5 = (.rangeError, 0) :=
  (validate_spec 1 0 5).2.1 (by decide) (fun _ _ _ => []) []

/-- C8 (cache modelled from the spec, §4.2): for a fixed key, starting
with no entry, a second `fetchCached` call less than `TTL` after the
first returns the identical stored value — the explicit Empty marker
included — with the adapter invoked exactly once across the pair, and a
call at or beyond the TTL horizon invokes the adapter again. -/
theorem cache_ttl_spec (adapter : CacheKey → ℤ → CacheVal) (k : CacheKey)
    (c0 : Cache) (t1 t2 t3 : ℤ) (h0 : c0 k = none) (_h12 : t1 ≤ t2)
    (hlt : t2 - t1 < TTL) (hge : TTL ≤ t3 - t1) :
    (fetchCached adapter (fetchCached adapter c0 k t1).2.1 k t2).1 =
      (fetchCached adapter c0 k t1).1 ∧
    (fetchCached adapter c0 k t1).2.2 +
      (fetchCached adapter (fetchCached adapter c0 k t1).2.1 k t2).2.2 = 1 ∧
    (fetchCached adapter (fetchCached adapter c0 k t1).2.1 k t3).2.2 = 1 := by
  have h1 : fetchCached adapter c0 k t1
      = (adapter k t1, cacheInsert c0 k (adapter k t1) t1, 1) := by
    unfold fetchCached
    rw [h0]
  have hk : cacheInsert c0 k (adapter k t1) t1 k = some (adapter k t1, t1) := by
    unfold cacheInsert
    rw [if_pos rfl]
  have h2 : fetchCached adapter (cacheInsert c0 k (adapter k t1) t1) k t2
      = (adapter k t1, cacheInsert c0 k (adapter k t1) t1, 0) := by
    unfold fetchCached
    rw [hk]
    dsimp only
    rw [if_pos hlt]
  have h3 : (fetchCached adapter (cacheInsert c0 k (adapter k t1) t1) k t3).2.2 = 1 := by
    unfold fetchCached
    rw [hk]
    dsimp only
    rw [if_neg (not_lt.mpr hge)]
  rw [h1]
  exact ⟨by rw [h2], by rw [h2]; rfl, h3⟩

/-- Witness for C8: an adapter that always reports Empty, key
`("A", 0, 1)`, calls at times 0, 10 and 3600. -/
theorem cache_ttl_spec_witness :
    (fetchCached (fun _ _ => none) (fetchCached (fun _ _ => none)
        (fun _ => none) ([65], 0, 1) 0).2.1 ([65], 0, 1) 10).1 =
      (fetchCached (fun _ _ => none) (fun _ => none) ([65], 0, 1) 0).1 ∧
    (fetchCached (fun _ _ => none) (fun _ => none) ([65], 0, 1) 0).2.2 +
      (fetchCached (fun _ _ => none) (fetchCached (fun _ _ => none)
        (fun _ => none) ([65], 0, 1) 0).2.1 ([65], 0, 1) 10).2.2 = 1 ∧
    (fetchCached (fun _ _ => none) (fetchCached (fun _ _ => none)
        (fun _ => none) ([65], 0, 1) 0).2.1 ([65], 0, 1) 3600).2.2 = 1 :=
  cache_ttl_spec (fun _ _ => none) ([65], 0, 1) (fun _ => none) 0 10 3600
    rfl (by decide) (by decide) (by decide)

/-- C9 (amended): a strictly positive daily return is coloured green, a
zero or negative one red (green and red distinct), and a NaN cell gets
no styling; zero — a non-negative value — shares the red of the
negative rows, against the claim's non-negative/negative split. -/
theorem highlight_returns_spec (v : ℚ) :
    (0 < v → highlight_returns (some v) = "color: green") ∧
    (v ≤ 0 → highlight_returns (some v) = "color: red") ∧
    highlight_returns none = "" ∧
    "color: green" ≠ "color: red" := by
  refine ⟨?_, ?_, rfl, by decide⟩
  · intro hv
    simp only [highlight_returns]
    rw [if_pos hv]
  · intro hv
    simp only [highlight_returns]
    rw [if_neg (not_lt.mpr hv)]

/-- C9 counterexample: the non-negative return 0 and the negative
return -0.1 are rendered in the same colour. -/
theorem highlight_zero_cex :
    (0 : ℚ) ≤ 0 ∧ (-1 : ℚ) / 10 < 0 ∧
    highlight_returns (some 0) = highlight_returns (some ((-1 : ℚ) / 10)) := by
  have hz : highlight_returns (some (0 : ℚ)) = "color: red" := by
    simp only [highlight_returns]
    rw [if_neg (by norm_num)]
  have hn : highlight_returns (some ((-1 : ℚ) / 10)) = "color: red" := by
    simp only [highlight_returns]
    rw [if_neg (by norm_num)]
  exact ⟨le_refl 0, by norm_num, by rw [hz, hn]⟩

/-- Witness for C9 at returns 1 and -1. -/
theorem highlight_returns_spec_witness :
    highlight_returns (some (1 : ℚ)) = "color: green" ∧
    highlight_returns (some (-1 : ℚ)) = "color: red" :=
  ⟨(highlight_returns_spec 1).1 (by norm_num),
    (highlight_returns_spec (-1)).2.1 (by norm_num)⟩

theorem isSpaceCh_eq_false_of_ge (c : Nat) (h1 : 33 ≤ c) : isSpaceCh c = false := by
  unfold isSpaceCh
  simp only [Bool.or_eq_false_iff, decide_eq_false_iff_not]
  omega

theorem upperCh_isSpace (c : Nat) : isSpaceCh (upperCh c) = isSpaceCh c := by
  by_cases h : 97 ≤ c ∧ c ≤ 122
  · unfold upperCh
    rw [if_pos h, isSpaceCh_eq_false_of_ge (c - 32) (by omega),
      isSpaceCh_eq_false_of_ge c (by omega)]
  · unfold upperCh
    rw [if_neg h]

theorem pyStrip_pyUpper_comm (s : Ticker) :
    pyStrip (pyUpper s) = pyUpper (pyStrip s) := by
  have hpf : (isSpaceCh ∘ upperCh) = isSpaceCh := funext upperCh_isSpace
  unfold pyStrip pyUpper
  rw [List.dropWhile_map, hpf, ← List.map_reverse, List.dropWhile_map, hpf,
    ← List.map_reverse]

/-- C10: the script's key `strip(upper(t))` coincides with the claim's
`upper(strip(t))`, so two ticker inputs that agree after stripping edge
whitespace and uppercasing normalise to the same key and drive the same
cache lookup and adapter call. -/
theorem ticker_normalization_spec (t1 t2 : Ticker)
    (h : pyUpper (pyStrip t1) = pyUpper (pyStrip t2)) :
    (∀ t : Ticker, normalizeTicker t = pyUpper (pyStrip t)) ∧
    normalizeTicker t1 = normalizeTicker t2 ∧
    ∀ (adapter : CacheKey → ℤ → CacheVal) (c : Cache) (s e now : ℤ),
      fetchCached adapter c (normalizeTicker t1, s, e) now =
        fetchCached adapter c (normalizeTicker t2, s, e) now := by
  have hnorm : ∀ t : Ticker, normalizeTicker t = pyUpper (pyStrip t) := fun t =>
    pyStrip_pyUpper_comm t
  have h12 : normalizeTicker t1 = normalizeTicker t2 := by
    rw [hnorm, hnorm, h]
  exact ⟨hnorm, h12, fun adapter c s e now => by rw [h12]⟩

/-- Witness for C10: the inputs `"aapl "` and `"AAPL"` (code points)
normalise to the same key. -/
theorem ticker_normalization_spec_witness :
    normalizeTicker [97, 97, 112, 108, 32] = normalizeTicker [65, 65, 80, 76] :=
  (ticker_normalization_spec [97, 97, 112, 108, 32] [65, 65, 80, 76] (by decide)).2.1

end App
